import Mathlib

/-!
# BeamMP-Launcher: process lifecycle, IPC relay and shutdown coordination

A shallow embedding of `src/Launcher.cpp`.  Every member function that the
development talks about is a Lean function from the state it reads to the
state it leaves behind, together with the list of calls it makes on its
collaborators (the *effect trace*), in program order.

* Values that another thread or the operating system decides
  (`Shutdown.load()` inside the polling loops, `Memory::GetBeamNGPID()`,
  the outcome of a timed receive or send) are inputs of the model.
* The polling loops take a fuel argument; results about them are stated for
  every sufficiently large fuel.
* `SendIPC` is given twice: as the calls of one thread from entry to return,
  and as a step function for any number of threads that share the mutex and
  the channel, run under an arbitrary schedule.
-/

namespace BeamMP

/-- A `std::string` used as a byte sequence. -/
abbrev Bytes := List Char

/-- Severity of a `LOG(...)` line. -/
inductive Level
  | INFO
  | WARNING
  | ERROR
  | FATAL
deriving DecidableEq, Repr

/-- The two `std::thread` members of `Launcher`. -/
inductive ThreadId
  | DiscordRPC
  | IPCSystem
deriving DecidableEq, Repr

/-- Calls made on collaborators, as they appear in `Launcher.cpp`. -/
inductive Effect
  /-- The store `Shutdown.store(true)`. -/
  | storeShutdown
  /-- The call `ServerHandler.Close()`. -/
  | serverClose
  /-- The call `DiscordRPC.join()` or `IPCSystem.join()`. -/
  | join (t : ThreadId)
  /-- The call `ResetMods()`. -/
  | resetMods
  /-- The call `OpenProcess(PROCESS_TERMINATE, false, DWORD(GamePID))`. -/
  | openProcess (pid : Nat)
  /-- The call `TerminateProcess(Handle, 0)`, the handle being the one opened for `pid`. -/
  | terminateProcess (pid : Nat)
  /-- The call `CloseHandle(Handle)` on the handle opened for `pid`. -/
  | closeHandle (pid : Nat)
  /-- A log line `LOG(level) << text`. -/
  | log (level : Level) (text : String)
  /-- The call `ShellExecuteA(nullptr, nullptr, target, nullptr, nullptr, SW_SHOWNORMAL)`. -/
  | shellExecute (target : String)
  /-- The assignment `IPCSystem = std::thread(&Launcher::ListenIPC, this)`. -/
  | startIPCThread
  /-- The call `Memory::Inject(GamePID)`. -/
  | inject (pid : Nat)
  /-- The call `setDiscordMessage(text)`. -/
  | setDiscordMessage (text : String)
  /-- The call `IPCFromGame.receive()`. -/
  | receive
  /-- The call `HandleIPC(payload)`. -/
  | handleIPC (payload : Bytes)
  /-- The call `ServerHandler.ServerSend(payload, flag)`. -/
  | serverSend (payload : Bytes) (flag : Bool)
  /-- The call `IPCFromGame.confirm_receive()`. -/
  | confirmReceive
  /-- The call `IPCToGame.send(frame)`. -/
  | ipcSend (frame : Bytes)
  /-- The store `Exit.store(b)`. -/
  | storeExit (b : Bool)
  /-- The construction of `std::scoped_lock Guard(Lock)`: the mutex is taken. -/
  | lockMutex
  /-- The destruction of `Guard` at the end of the body: the mutex is released. -/
  | unlockMutex
deriving DecidableEq, Repr

/-- How a call ends: it returns, or it leaves by an exception carrying `what`
(`ShutdownException("Fatal Error")`, or whatever a collaborator raised). -/
inductive Outcome
  | returned
  | threw (what : String)
deriving DecidableEq, Repr

/-- The members of `Launcher` (and the two static atomics) that the functions
below read or write.  A thread is represented by its `joinable()` bit. -/
structure Launcher where
  Shutdown : Bool
  Exit : Bool
  GamePID : Nat
  DiscordRPC : Bool
  IPCSystem : Bool
  MPUserPath : String
deriving DecidableEq, Repr

/-- State at process start: both flags false, no thread started, no PID. -/
def Launcher.initial : Launcher :=
  { Shutdown := false, Exit := false, GamePID := 0,
    DiscordRPC := false, IPCSystem := false, MPUserPath := "" }

/-! ## Shutdown: `Abort`, destructor, `StaticAbort`, flag accessors -/

/-- Embedding of `void Launcher::Abort()` (lines 33-50).  `join()` leaves the thread not
joinable; `GamePID` and `MPUserPath` are not written. -/
def Launcher.Abort (L : Launcher) : Launcher × List Effect :=
  ({ L with Shutdown := true, DiscordRPC := false, IPCSystem := false },
    [Effect.storeShutdown, Effect.serverClose]
      ++ (if L.DiscordRPC then [Effect.join ThreadId.DiscordRPC] else [])
      ++ (if L.IPCSystem then [Effect.join ThreadId.IPCSystem] else [])
      ++ (if L.MPUserPath ≠ "" then [Effect.resetMods] else [])
      ++ (if L.GamePID ≠ 0 then
            [Effect.openProcess L.GamePID, Effect.terminateProcess L.GamePID,
              Effect.closeHandle L.GamePID]
          else []))

/-- Embedding of `Launcher::~Launcher()` (lines 52-56): `Abort()` unless `Shutdown` is set. -/
def Launcher.destructor (L : Launcher) : Launcher × List Effect :=
  if !L.Shutdown then L.Abort else (L, [])

/-- Embedding of `Launcher::StaticAbort(nullptr)` (lines 69-76) with the instance that the
constructor registered: `Address->Abort()`. -/
def Launcher.StaticAbort (L : Launcher) : Launcher × List Effect :=
  L.Abort

/-- Embedding of `bool Launcher::Terminated()`. -/
def Launcher.Terminated (L : Launcher) : Bool := L.Shutdown

/-- Embedding of `bool Launcher::getExit()`. -/
def Launcher.getExit (L : Launcher) : Bool := L.Exit

/-- Embedding of `void Launcher::setExit(bool exit)`. -/
def Launcher.setExit (L : Launcher) (exit : Bool) : Launcher × List Effect :=
  ({ L with Exit := exit }, [Effect.storeExit exit])

/-- The operations of this file that write `Shutdown` or `Exit`. -/
inductive Op
  /-- A direct call of `Abort()`. -/
  | Abort
  /-- The call `StaticAbort()` made by `ShutdownHandler`. -/
  | StaticAbort
  /-- The destructor `~Launcher()`. -/
  | destructor
  /-- The call `setExit(b)`. -/
  | setExit (b : Bool)
deriving DecidableEq, Repr

/-- One operation on the instance. -/
def Op.apply : Op → Launcher → Launcher × List Effect
  | Op.Abort, L => L.Abort
  | Op.StaticAbort, L => L.StaticAbort
  | Op.destructor, L => L.destructor
  | Op.setExit b, L => L.setExit b

/-- A sequence of operations, one after the other, with the whole trace. -/
def run : List Op → Launcher → Launcher × List Effect
  | [], L => (L, [])
  | o :: os, L =>
    let r := o.apply L
    let r2 := run os r.1
    (r2.1, r.2 ++ r2.2)

/-- The effect is a thread join. -/
def Effect.isJoin : Effect → Bool
  | Effect.join _ => true
  | _ => false

/-- The effect is a `TerminateProcess` call. -/
def Effect.isTerminate : Effect → Bool
  | Effect.terminateProcess _ => true
  | _ => false

/-! ## Version gate and launch: `LaunchGame` -/

/-- Modelled from the spec: the class `VersionParser`, whose header is not among
the sources.  In the words of the data model it is a "VersionTriplet:
{major, minor, patch} parsed from a dotted version string; comparison is
lexicographic field-by-field". -/
structure VersionParser where
  major : Nat
  minor : Nat
  patch : Nat
deriving DecidableEq, Repr

/-- Modelled from the spec: the member `data` of `VersionParser`, the fields in
order, so that `data[0]` is the major component. -/
def VersionParser.data (v : VersionParser) : List Nat :=
  [v.major, v.minor, v.patch]

/-- The element `data[0]`. -/
def VersionParser.data0 (v : VersionParser) : Nat :=
  v.data.headD 0

/-- Modelled from the spec: `operator<` of `VersionParser`, lexicographic
field by field. -/
def VersionParser.lt (a b : VersionParser) : Bool :=
  decide (a.major < b.major) ||
    (decide (a.major = b.major) &&
      (decide (a.minor < b.minor) ||
        (decide (a.minor = b.minor) && decide (a.patch < b.patch))))

/-- Modelled from the spec: `operator>` of `VersionParser`, the same order
read from the other side. -/
def VersionParser.gt (a b : VersionParser) : Bool :=
  b.lt a

/-- The URI handed to the shell by `LaunchGame`. -/
def steamURI : String := "steam://rungameid/284160"

/-- Embedding of `void Launcher::LaunchGame()` (lines 87-107).  `runningPID` is what
`Memory::GetBeamNGPID()` returns, `BeamVersion` the version string read from the
registry, `GameVersion` the `VersionParser` built from it, and
`SupportedVersion` the member of that name. -/
def LaunchGame (runningPID : Nat) (BeamVersion : String)
    (GameVersion SupportedVersion : VersionParser) : List Effect × Outcome :=
  if runningPID ≠ 0 then
    ([Effect.log Level.FATAL "Game is already running, please close it and try again!"],
      Outcome.threw "Fatal Error")
  else if GameVersion.data0 > SupportedVersion.data0 then
    ([Effect.log Level.FATAL
        ("BeamNG V" ++ BeamVersion ++ " not yet supported, please wait until we update BeamMP!")],
      Outcome.threw "Fatal Error")
  else if GameVersion.data0 < SupportedVersion.data0 then
    ([Effect.log Level.FATAL
        ("BeamNG V" ++ BeamVersion ++ " not supported, please update and launch the new update!")],
      Outcome.threw "Fatal Error")
  else if GameVersion.gt SupportedVersion then
    ([Effect.log Level.WARNING
        ("BeamNG V" ++ BeamVersion ++ " is slightly newer than recommended, this might cause issues!"),
      Effect.shellExecute steamURI], Outcome.returned)
  else if GameVersion.lt SupportedVersion then
    ([Effect.log Level.WARNING
        ("BeamNG V" ++ BeamVersion ++ " is slightly older than recommended, this might cause issues!"),
      Effect.shellExecute steamURI], Outcome.returned)
  else
    ([Effect.shellExecute steamURI], Outcome.returned)

/-- The effect is a log line of any level. -/
def Effect.isLog : Effect → Bool
  | Effect.log _ _ => true
  | _ => false

/-- The effect is a log line of level WARNING. -/
def Effect.isWarning : Effect → Bool
  | Effect.log Level.WARNING _ => true
  | _ => false

/-- The effect is a `ShellExecuteA` call. -/
def Effect.isShellExecute : Effect → Bool
  | Effect.shellExecute _ => true
  | _ => false

/-! ## Waiting for the game: `WaitForGame` -/

/-- What the surroundings answer during one run of a polling loop:
`pidAt k` is the result of the `k`-th call of `Memory::GetBeamNGPID()` and
`shutdownAt k` the value seen by the `k`-th `Shutdown.load()` (counting from 0). -/
structure Env where
  pidAt : Nat → Nat
  shutdownAt : Nat → Bool

/-- State of one run of `WaitForGame`: the members it writes (`GamePID`, and
`IPCSystem` as its `joinable()` bit), how many PID queries, flag loads and
two-second sleeps have been made, and the other effects so far. -/
structure Wait where
  GamePID : Nat
  IPCSystem : Bool
  queries : Nat
  loads : Nat
  sleeps : Nat
  trace : List Effect
deriving DecidableEq, Repr

/-- Entry state of `WaitForGame` for a launcher whose `GamePID` is `pid`. -/
def Wait.start (pid : Nat) : Wait :=
  { GamePID := pid, IPCSystem := false, queries := 0, loads := 0, sleeps := 0, trace := [] }

/-- The `do { ... } while(GamePID == 0 && !Shutdown.load())` loop of lines
111-114.  The flag is loaded only when `GamePID == 0` (short-circuit `&&`).
The result is `none` when the fuel does not suffice. -/
def discoveryLoop (env : Env) : Nat → Wait → Option Wait
  | 0, _ => none
  | fuel + 1, w =>
    let w1 := { w with GamePID := env.pidAt w.queries, queries := w.queries + 1,
                       sleeps := w.sleeps + 1 }
    if w1.GamePID = 0 then
      let w2 := { w1 with loads := w1.loads + 1 }
      if !env.shutdownAt w1.loads then discoveryLoop env fuel w2 else some w2
    else some w1

/-- The `while(!Shutdown.load() && Memory::GetBeamNGPID() != 0)` loop of lines
124-126.  The PID is queried only when the flag was read false. -/
def livenessLoop (env : Env) : Nat → Wait → Option Wait
  | 0, _ => none
  | fuel + 1, w =>
    let w1 := { w with loads := w.loads + 1 }
    if !env.shutdownAt w.loads then
      let w2 := { w1 with queries := w1.queries + 1 }
      if env.pidAt w1.queries ≠ 0 then
        livenessLoop env fuel { w2 with sleeps := w2.sleeps + 1 }
      else some w2
    else some w1

/-- Embedding of `void Launcher::WaitForGame()` (lines 109-129). -/
def WaitForGame (env : Env) (fuel : Nat) (w : Wait) : Option (Wait × Outcome) :=
  let w0 := { w with trace := w.trace ++ [Effect.log Level.INFO
    "Waiting for the game, please start BeamNG manually in case of steam issues"] }
  match discoveryLoop env fuel w0 with
  | none => none
  | some w1 =>
    let w2 := { w1 with loads := w1.loads + 1 }
    if env.shutdownAt w1.loads then some (w2, Outcome.returned)
    else if w2.GamePID = 0 then
      some ({ w2 with trace := w2.trace ++
          [Effect.log Level.FATAL "Game process not found! aborting"] },
        Outcome.threw "Fatal Error")
    else
      let w3 := { w2 with
        IPCSystem := true,
        trace := w2.trace ++
          [Effect.log Level.INFO ("Game found! PID " ++ toString w2.GamePID),
            Effect.startIPCThread, Effect.inject w2.GamePID,
            Effect.setDiscordMessage "In menus"] }
      match livenessLoop env fuel w3 with
      | none => none
      | some w4 =>
        some ({ w4 with GamePID := 0, trace := w4.trace ++
            [Effect.log Level.INFO "Game process was lost"] },
          Outcome.returned)

/-- The effect is a `Memory::Inject` call. -/
def Effect.isInject : Effect → Bool
  | Effect.inject _ => true
  | _ => false

/-! ## IPC relay: `ListenIPC` and `SendIPC` -/

/-- The element `MSG[0]` of a `std::string`: the first character, and the
terminating null character when the string is empty. -/
def at0 (MSG : Bytes) : Char :=
  MSG.headD (Char.ofNat 0)

/-- The call `MSG.substr(1)`: the string without its first character;
`std::out_of_range` when the string is empty. -/
def substr1 (MSG : Bytes) : Except String Bytes :=
  match MSG with
  | [] => Except.error "std::out_of_range"
  | _ :: rest => Except.ok rest

/-- One pass through the body of the `while` loop of `Launcher::ListenIPC`
(lines 133-142).  `received` is `none` when `receive_timed_out()` holds and
the message otherwise; `HandleIPC` and `ServerSend` tell how the two
collaborators end on a given argument.  A statement after a call that leaves by
an exception is not executed. -/
def ListenIPCBody (HandleIPC : Bytes → Outcome) (ServerSend : Bytes → Bool → Outcome)
    (received : Option Bytes) : List Effect × Outcome :=
  match received with
  | none => ([Effect.receive], Outcome.returned)
  | some MSG =>
    if at0 MSG = 'C' then
      match substr1 MSG with
      | Except.error e => ([Effect.receive], Outcome.threw e)
      | Except.ok payload =>
        match HandleIPC payload with
        | Outcome.threw e => ([Effect.receive, Effect.handleIPC payload], Outcome.threw e)
        | Outcome.returned =>
          ([Effect.receive, Effect.handleIPC payload, Effect.confirmReceive], Outcome.returned)
    else
      match substr1 MSG with
      | Except.error e => ([Effect.receive], Outcome.threw e)
      | Except.ok payload =>
        match ServerSend payload false with
        | Outcome.threw e =>
          ([Effect.receive, Effect.serverSend payload false], Outcome.threw e)
        | Outcome.returned =>
          ([Effect.receive, Effect.serverSend payload false, Effect.confirmReceive],
            Outcome.returned)

/-- Embedding of `void Launcher::ListenIPC()` (lines 131-144): pass `i` loads the flag
(`shutdownAt i`) and, when it is false, receives `recvAt i`. -/
def ListenIPC (HandleIPC : Bytes → Outcome) (ServerSend : Bytes → Bool → Outcome)
    (shutdownAt : Nat → Bool) (recvAt : Nat → Option Bytes) :
    Nat → Nat → Option (List Effect × Outcome)
  | 0, _ => none
  | fuel + 1, i =>
    if !shutdownAt i then
      match ListenIPCBody HandleIPC ServerSend (recvAt i) with
      | (t, Outcome.threw e) => some (t, Outcome.threw e)
      | (t, Outcome.returned) =>
        match ListenIPC HandleIPC ServerSend shutdownAt recvAt fuel (i + 1) with
        | none => none
        | some r => some (t ++ r.1, r.2)
    else some ([], Outcome.returned)

/-- The effect is a dispatch: `HandleIPC` or `ServerSend`. -/
def Effect.isDispatch : Effect → Bool
  | Effect.handleIPC _ => true
  | Effect.serverSend _ _ => true
  | _ => false

/-- Embedding of `void Launcher::SendIPC(const std::string& Data, bool core)` (lines
146-154), as the calls one thread makes from entry to return.  `timedOut` is
what `IPCToGame.send_timed_out()` answers after the send.  The function-local
static mutex is taken first and released last; what the mutex does when several
threads are inside the function is the subject of `Senders.step` below. -/
def SendIPC (Data : Bytes) (core : Bool) (timedOut : Bool) : List Effect × Outcome :=
  ([Effect.lockMutex]
    ++ (if core then [Effect.ipcSend ('C' :: Data)]
      else [Effect.ipcSend ('G' :: Data)])
    ++ (if timedOut then
          [Effect.log Level.WARNING ("Timed out while sending \"" ++ String.mk Data ++ "\"")]
        else [])
    ++ [Effect.unlockMutex],
    Outcome.returned)

/-- One call of `SendIPC` with what the channel answers. -/
structure SendCall where
  Data : Bytes
  core : Bool
  timedOut : Bool
deriving DecidableEq, Repr

/-- Calls of `SendIPC` in the order in which they hold the lock. -/
def sendAll : List SendCall → List Effect
  | [] => []
  | c :: cs => (SendIPC c.Data c.core c.timedOut).1 ++ sendAll cs

/-- The frames written to the outbound channel, in order. -/
def frames : List Effect → List Bytes
  | [] => []
  | Effect.ipcSend f :: rest => f :: frames rest
  | _ :: rest => frames rest

/-- No `setExit(true)` comes before the first call that stores `Shutdown`
(`Abort`, `StaticAbort` or the destructor). -/
def exitAfterShutdown : List Op → Bool
  | [] => true
  | Op.setExit true :: _ => false
  | Op.setExit false :: rest => exitAfterShutdown rest
  | _ :: _ => true

/-- A launcher with both threads running and a supervised process. -/
def Launcher.busy : Launcher :=
  { Shutdown := false, Exit := false, GamePID := 4711,
    DiscordRPC := true, IPCSystem := true, MPUserPath := "mods" }

/-- How the dispatch statement of `ListenIPC` for the received string `MSG`
ends: the argument `substr(1)` may raise; otherwise it ends as the call does,
`HandleIPC` on the payload for tag `'C'` and `ServerSend` on it otherwise. -/
def dispatchOutcome (HandleIPC : Bytes → Outcome) (ServerSend : Bytes → Bool → Outcome)
    (MSG : Bytes) : Outcome :=
  match substr1 MSG with
  | Except.error e => Outcome.threw e
  | Except.ok payload =>
    if at0 MSG = 'C' then HandleIPC payload else ServerSend payload false

/-- The frame that `SendIPC` builds for a call. -/
def SendCall.frame (c : SendCall) : Bytes :=
  (if c.core then 'C' else 'G') :: c.Data

/-! ### Several threads inside `SendIPC` -/

/-- Where a thread stands inside the body of `SendIPC`. -/
inductive PC
  /-- Outside the body: before `std::scoped_lock Guard(Lock)` of its next call. -/
  | idle
  /-- The guard is constructed; `IPCToGame.send` has not started. -/
  | locked (c : SendCall)
  /-- Inside `IPCToGame.send(frame)`: `rest` is the part of the frame still to be copied. -/
  | sending (c : SendCall) (rest : Bytes)
  /-- The call `IPCToGame.send` has returned. -/
  | sent (c : SendCall)
  /-- The test `IPCToGame.send_timed_out()` is done and its warning logged; the
  guard is still alive. -/
  | checked (c : SendCall)
deriving DecidableEq, Repr

/-- Modelled from the spec: the class of the outbound channel `IPCToGame`, which
is not among the sources.  The spec has the lock of `SendIPC` guarantee "that
concurrent senders never interleave partial frames", so a send is not one
indivisible step of the channel: it copies the frame into the transfer buffer
piece by piece and then hands the buffer over as one frame. -/
structure Channel where
  buffer : Bytes
  delivered : List Bytes
deriving DecidableEq, Repr

/-- Modelled from the spec: a send starts on an empty transfer buffer. -/
def Channel.start (ch : Channel) : Channel :=
  { ch with buffer := [] }

/-- Modelled from the spec: a send copies one more byte of its frame. -/
def Channel.put (ch : Channel) (b : Char) : Channel :=
  { ch with buffer := ch.buffer ++ [b] }

/-- Modelled from the spec: a send hands the transfer buffer over as a frame. -/
def Channel.handOver (ch : Channel) : Channel :=
  { ch with delivered := ch.delivered ++ [ch.buffer] }

/-- A function changed at one argument. -/
def upd {α : Type} (f : Nat → α) (i : Nat) (v : α) : Nat → α :=
  fun j => if j = i then v else f j

/-- The threads that call `SendIPC` and what they share: the function-local
`static std::mutex Lock` (the thread that holds it, if any), the channel
`IPCToGame`, and the log.  Thread `i` stands at `pc i` and has the calls
`todo i` still to make. -/
structure Senders where
  Lock : Option Nat
  IPCToGame : Channel
  logged : List Effect
  pc : Nat → PC
  todo : Nat → List SendCall

/-- Threads that have not entered `SendIPC` yet, thread `i` going to make the
calls `calls i` in order. -/
def Senders.init (calls : Nat → List SendCall) : Senders :=
  { Lock := none, IPCToGame := { buffer := [], delivered := [] }, logged := [],
    pc := fun _ => PC.idle, todo := calls }

/-- One step of thread `i` through `SendIPC` (lines 146-154).  With
`mutex = true` this is the source: the constructor of the guard blocks while
another thread holds `Lock`, and the end of the body releases it.  With
`mutex = false` it is the same body without lines 147-148. -/
def Senders.step (mutex : Bool) (s : Senders) (i : Nat) : Senders :=
  match s.pc i with
  | PC.idle =>
    match s.todo i with
    | [] => s
    | c :: rest =>
      if mutex = true ∧ s.Lock ≠ none then s
      else
        { s with Lock := if mutex then some i else s.Lock,
                 pc := upd s.pc i (PC.locked c), todo := upd s.todo i rest }
  | PC.locked c =>
    { s with IPCToGame := s.IPCToGame.start,
             pc := upd s.pc i
               (PC.sending c (if c.core then 'C' :: c.Data else 'G' :: c.Data)) }
  | PC.sending c (b :: rest) =>
    { s with IPCToGame := s.IPCToGame.put b, pc := upd s.pc i (PC.sending c rest) }
  | PC.sending c [] =>
    { s with IPCToGame := s.IPCToGame.handOver, pc := upd s.pc i (PC.sent c) }
  | PC.sent c =>
    { s with logged := s.logged ++
               (if c.timedOut then
                 [Effect.log Level.WARNING
                   ("Timed out while sending \"" ++ String.mk c.Data ++ "\"")]
               else []),
             pc := upd s.pc i (PC.checked c) }
  | PC.checked _ =>
    { s with Lock := if mutex then none else s.Lock, pc := upd s.pc i PC.idle }

/-- The threads scheduled one step at a time: `sched` lists whose turn it is. -/
def Senders.run (mutex : Bool) : List Nat → Senders → Senders
  | [], s => s
  | i :: rest, s => Senders.run mutex rest (s.step mutex i)

/-- The calls of thread `i` whose frame has been handed over, `done` listing
the handed-over frames in order with the thread and call they come from. -/
def sentOf (done : List (Nat × SendCall)) (i : Nat) : List SendCall :=
  (done.filter (fun d => decide (d.1 = i))).map Prod.snd

/-- The calls of thread `i` whose frame has not been handed over yet. -/
def Senders.pending (s : Senders) (i : Nat) : List SendCall :=
  match s.pc i with
  | PC.idle => s.todo i
  | PC.locked c => c :: s.todo i
  | PC.sending c _ => c :: s.todo i
  | PC.sent _ => s.todo i
  | PC.checked _ => s.todo i

/-- Two threads: thread 0 calls `SendIPC("ping", true)` and thread 1 calls
`SendIPC("pong", false)`; `t0` and `t1` say whether their sends time out. -/
def pingPong (t0 t1 : Bool) : Nat → List SendCall :=
  fun i =>
    if i = 0 then [⟨"ping".toList, true, t0⟩]
    else if i = 1 then [⟨"pong".toList, false, t1⟩]
    else []

/-- What the mutex maintains: a thread inside the body holds `Lock`; while a
thread copies a frame, the transfer buffer and the part still to be copied
make up that frame; and the frames handed over are, in order, the frames of the
calls listed in `done`, which for every thread are the first calls it had to
make, the remaining ones being still pending. -/
def Senders.Inv (calls : Nat → List SendCall) (s : Senders) : Prop :=
  (∀ i, s.pc i ≠ PC.idle → s.Lock = some i)
  ∧ (∀ i c r, s.pc i = PC.sending c r → s.IPCToGame.buffer ++ r = c.frame)
  ∧ ∃ done : List (Nat × SendCall),
      s.IPCToGame.delivered = done.map (fun d => d.2.frame)
      ∧ ∀ i, calls i = sentOf done i ++ s.pending i

/-- One thread, number 0, that makes the single call `c`. -/
def soloCall (c : SendCall) : Nat → List SendCall :=
  fun i => if i = 0 then [c] else []

/-- The value of `joinable()` for one of the two threads. -/
def Launcher.joinable (L : Launcher) : ThreadId → Bool
  | ThreadId.DiscordRPC => L.DiscordRPC
  | ThreadId.IPCSystem => L.IPCSystem

/-- A collaborator that always returns. -/
def alwaysReturns : Bytes → Outcome :=
  fun _ => Outcome.returned

/-- A network relay that always returns. -/
def relayReturns : Bytes → Bool → Outcome :=
  fun _ _ => Outcome.returned

/-- A command handler that always raises. -/
def alwaysThrows : Bytes → Outcome :=
  fun _ => Outcome.threw "handler failed"

/-- Surroundings in which no game process ever appears and the flag is read
true from the third load on. -/
def Env.neverFound : Env :=
  { pidAt := fun _ => 0, shutdownAt := fun k => decide (2 ≤ k) }

/-- Surroundings in which the process 4711 appears at the second query, is
alive for two liveness polls and is then gone, with the flag never set. -/
def Env.foundThenLost : Env :=
  { pidAt := fun k => if 1 ≤ k ∧ k ≤ 3 then 4711 else 0, shutdownAt := fun _ => false }

/-- Surroundings in which the process 4711 appears at the second query and the
flag is read true from the second load on. -/
def Env.foundButShutdown : Env :=
  { pidAt := fun k => if 1 ≤ k then 4711 else 0, shutdownAt := fun k => decide (1 ≤ k) }

/-- Surroundings in which no process appears and the flag, read true once, is
read false afterwards. -/
def Env.flagReset : Env :=
  { pidAt := fun _ => 0, shutdownAt := fun k => decide (k = 0) }

/-! ## Shutdown: proofs -/

theorem Abort_Shutdown (L : Launcher) : L.Abort.1.Shutdown = true := rfl

theorem destructor_of_Shutdown (L : Launcher) (h : L.Shutdown = true) :
    L.destructor = (L, []) := by
  simp [Launcher.destructor, h]

theorem destructor_of_not_Shutdown (L : Launcher) (h : L.Shutdown = false) :
    L.destructor = L.Abort := by
  simp [Launcher.destructor, h]

theorem run_destructors_of_Shutdown (n : Nat) (L : Launcher) (h : L.Shutdown = true) :
    run (List.replicate n Op.destructor) L = (L, []) := by
  induction n with
  | zero => rfl
  | succ k ih =>
    simp [List.replicate_succ, run, Op.apply, destructor_of_Shutdown L h, ih]

theorem apply_Shutdown_mono (o : Op) (L : Launcher) (h : L.Shutdown = true) :
    (o.apply L).1.Shutdown = true := by
  cases o <;> simp [Op.apply, Launcher.StaticAbort, Launcher.Abort, Launcher.setExit,
    destructor_of_Shutdown L h, h]

theorem run_Shutdown_mono (ops : List Op) (L : Launcher) (h : L.Shutdown = true) :
    (run ops L).1.Shutdown = true := by
  induction ops generalizing L with
  | nil => simpa [run] using h
  | cons o os ih => simpa [run] using ih _ (apply_Shutdown_mono o L h)

/-- How often one `Abort` closes the relay, joins each thread and terminates. -/
theorem Abort_counts (L : Launcher) :
    L.Abort.2.count Effect.serverClose = 1
    ∧ L.Abort.2.count (Effect.join ThreadId.DiscordRPC) = (if L.DiscordRPC then 1 else 0)
    ∧ L.Abort.2.count (Effect.join ThreadId.IPCSystem) = (if L.IPCSystem then 1 else 0)
    ∧ L.Abort.2.countP Effect.isTerminate = (if L.GamePID ≠ 0 then 1 else 0) := by
  obtain ⟨sd, ex, pid, d, i, mp⟩ := L
  refine ⟨?_, ?_, ?_, ?_⟩ <;>
    cases d <;> cases i <;> by_cases hm : mp = "" <;> by_cases hp : pid = 0 <;>
      simp [Launcher.Abort, hm, hp, Effect.isTerminate, List.countP_cons]

/-- C6: in the trace of one `Abort`, from any state, the store of `Shutdown`
and the relay close come first; no join comes before them; each of the two
threads is joined exactly when it is joinable; no `TerminateProcess` comes
before a join; the process is terminated exactly when `GamePID` is non-zero,
and then the trace ends with open, terminate, close of that handle. -/
theorem Abort_order (L : Launcher) :
    L.Abort.2.take 2 = [Effect.storeShutdown, Effect.serverClose]
    ∧ L.Abort.2.Pairwise
        (fun a b => ¬ (a.isJoin = true ∧ (b = Effect.storeShutdown ∨ b = Effect.serverClose)))
    ∧ L.Abort.2.Pairwise (fun a b => ¬ (a.isTerminate = true ∧ b.isJoin = true))
    ∧ L.Abort.2.count (Effect.join ThreadId.DiscordRPC) = (if L.DiscordRPC then 1 else 0)
    ∧ L.Abort.2.count (Effect.join ThreadId.IPCSystem) = (if L.IPCSystem then 1 else 0)
    ∧ L.Abort.2.countP Effect.isTerminate = (if L.GamePID ≠ 0 then 1 else 0)
    ∧ (if L.GamePID ≠ 0 then
          [Effect.openProcess L.GamePID, Effect.terminateProcess L.GamePID,
            Effect.closeHandle L.GamePID]
        else []) <:+ L.Abort.2 := by
  refine ⟨?_, ?_, ?_, (Abort_counts L).2.1, (Abort_counts L).2.2.1, (Abort_counts L).2.2.2, ?_⟩
  · simp [Launcher.Abort]
  · obtain ⟨sd, ex, pid, d, i, mp⟩ := L
    cases d <;> cases i <;> by_cases hm : mp = "" <;> by_cases hp : pid = 0 <;>
      simp [Launcher.Abort, hm, hp, Effect.isJoin]
  · obtain ⟨sd, ex, pid, d, i, mp⟩ := L
    cases d <;> cases i <;> by_cases hm : mp = "" <;> by_cases hp : pid = 0 <;>
      simp [Launcher.Abort, hm, hp, Effect.isJoin, Effect.isTerminate]
  · simp only [Launcher.Abort]
    exact List.suffix_append _ _

/-- An operation on a launcher whose thread `t` is not joinable does not join
it and leaves it not joinable. -/
theorem apply_no_join (t : ThreadId) (o : Op) (L : Launcher) (h : L.joinable t = false) :
    (o.apply L).2.count (Effect.join t) = 0 ∧ (o.apply L).1.joinable t = false := by
  obtain ⟨sd, ex, pid, d, i, mp⟩ := L
  cases t
  · have hd : d = false := h
    subst hd
    cases o <;> cases sd <;> cases i <;>
      by_cases hm : mp = "" <;> by_cases hp : pid = 0 <;>
        simp [Op.apply, Launcher.Abort, Launcher.StaticAbort, Launcher.destructor,
          Launcher.setExit, Launcher.joinable, hm, hp]
  · have hi : i = false := h
    subst hi
    cases o <;> cases sd <;> cases d <;>
      by_cases hm : mp = "" <;> by_cases hp : pid = 0 <;>
        simp [Op.apply, Launcher.Abort, Launcher.StaticAbort, Launcher.destructor,
          Launcher.setExit, Launcher.joinable, hm, hp]

/-- A thread that is not joinable is not joined by any sequence of operations. -/
theorem run_no_join (t : ThreadId) (ops : List Op) :
    ∀ L : Launcher, L.joinable t = false → (run ops L).2.count (Effect.join t) = 0 := by
  induction ops with
  | nil => intro L _; rfl
  | cons o os ih =>
    intro L h
    obtain ⟨h1, h2⟩ := apply_no_join t o L h
    simp [run, List.count_append, h1, ih _ h2]

/-- Joins are not repeated: whatever the sequence of operations, each of the
two threads is joined at most once. -/
theorem joins_at_most_once (t : ThreadId) (ops : List Op) :
    ∀ L : Launcher, (run ops L).2.count (Effect.join t) ≤ 1 := by
  induction ops with
  | nil => intro L; simp [run]
  | cons o os ih =>
    intro L
    have hA : (run os L.Abort.1).2.count (Effect.join t) = 0 :=
      run_no_join t os _ (by cases t <;> rfl)
    have hcA : L.Abort.2.count (Effect.join t) ≤ 1 := by
      cases t
      · rw [(Abort_counts L).2.1]; split <;> simp
      · rw [(Abort_counts L).2.2.1]; split <;> simp
    cases o with
    | Abort =>
      simp only [run, Op.apply, List.count_append, hA]
      exact hcA
    | StaticAbort =>
      simp only [run, Op.apply, Launcher.StaticAbort, List.count_append, hA]
      exact hcA
    | destructor =>
      by_cases hs : L.Shutdown = true
      · simp only [run, Op.apply, destructor_of_Shutdown L hs, List.nil_append]
        exact ih L
      · have hs2 : L.Shutdown = false := by simpa using hs
        simp only [run, Op.apply, destructor_of_not_Shutdown L hs2, List.count_append, hA]
        exact hcA
    | setExit b =>
      simp only [run, Op.apply, Launcher.setExit, List.count_append]
      have := ih { L with Exit := b }
      simpa using this

/-- C4 at the failing input: two termination signals, each running
`StaticAbort`, on a launcher with both threads running and a supervised
process.  The relay is closed twice and the process terminated twice; only the
joins happen once.  The same holds for a direct `Abort` followed by a signal.
When the second request comes through the destructor instead, which checks
`Shutdown` first, everything happens once. -/
theorem Abort_twice_repeats_teardown :
    ((run [Op.StaticAbort, Op.StaticAbort] Launcher.busy).2.count Effect.serverClose = 2
      ∧ (run [Op.StaticAbort, Op.StaticAbort] Launcher.busy).2.countP Effect.isTerminate = 2
      ∧ (run [Op.StaticAbort, Op.StaticAbort] Launcher.busy).2.count
          (Effect.join ThreadId.DiscordRPC) = 1
      ∧ (run [Op.StaticAbort, Op.StaticAbort] Launcher.busy).2.count
          (Effect.join ThreadId.IPCSystem) = 1)
    ∧ ((run [Op.Abort, Op.StaticAbort] Launcher.busy).2.count Effect.serverClose = 2
      ∧ (run [Op.Abort, Op.StaticAbort] Launcher.busy).2.countP Effect.isTerminate = 2)
    ∧ ((run [Op.StaticAbort, Op.destructor] Launcher.busy).2.count Effect.serverClose = 1
      ∧ (run [Op.StaticAbort, Op.destructor] Launcher.busy).2.countP Effect.isTerminate = 1) := by
  decide

/-- The guarded path: when the first shutdown request reaches `Abort`
(directly, through `StaticAbort`, or through the destructor of a launcher whose
flag is still false) and every later request comes through the destructor, the
whole sequence does exactly what one `Abort` does: the relay is closed once,
each joinable thread is joined once, a known process is terminated once, and
the later requests add no effect. -/
theorem teardown_once_behind_destructor_guard (L : Launcher) (first : Op) (n : Nat)
    (hflag : L.Shutdown = false)
    (hfirst : first = Op.Abort ∨ first = Op.StaticAbort ∨ first = Op.destructor) :
    run (first :: List.replicate n Op.destructor) L = L.Abort
    ∧ (run (first :: List.replicate n Op.destructor) L).2.count Effect.serverClose = 1
    ∧ (run (first :: List.replicate n Op.destructor) L).2.count
        (Effect.join ThreadId.DiscordRPC) = (if L.DiscordRPC then 1 else 0)
    ∧ (run (first :: List.replicate n Op.destructor) L).2.count
        (Effect.join ThreadId.IPCSystem) = (if L.IPCSystem then 1 else 0)
    ∧ (run (first :: List.replicate n Op.destructor) L).2.countP Effect.isTerminate
        = (if L.GamePID ≠ 0 then 1 else 0) := by
  have hone : first.apply L = L.Abort := by
    rcases hfirst with h | h | h
    · subst h; rfl
    · subst h; rfl
    · subst h; exact destructor_of_not_Shutdown L hflag
  have hrun : run (first :: List.replicate n Op.destructor) L = L.Abort := by
    simp [run, hone, run_destructors_of_Shutdown n _ (Abort_Shutdown L)]
  rw [hrun]
  exact ⟨rfl, Abort_counts L⟩

/-- C5, as stated, fails: `setExit(true)` is a plain store, so from the initial
state one call of it leaves `getExit()` true while `Terminated()` is false. -/
theorem setExit_true_breaks_order :
    (run [Op.setExit true] Launcher.initial).1.getExit = true
    ∧ (run [Op.setExit true] Launcher.initial).1.Terminated = false := by
  decide

/-- C5, amended: from a state with both flags false, `getExit()` is true only
when `Terminated()` is true in every state passed through by a sequence of the
flag-writing operations exactly when no `setExit(true)` in the sequence comes
before the first `Abort`, `StaticAbort` or destructor call. -/
theorem Exit_only_after_Shutdown (L : Launcher) (ops : List Op)
    (hS : L.Shutdown = false) (hE : L.Exit = false) :
    (∀ k, (run (ops.take k) L).1.getExit = true → (run (ops.take k) L).1.Terminated = true)
      ↔ exitAfterShutdown ops = true := by
  induction ops generalizing L with
  | nil => simp [run, exitAfterShutdown, Launcher.getExit, hE]
  | cons o os ih =>
    have hmono : ∀ (L1 : Launcher), L1.Shutdown = true →
        ∀ k, (run (os.take k) L1).1.getExit = true →
          (run (os.take k) L1).1.Terminated = true :=
      fun L1 h1 k _ => run_Shutdown_mono _ L1 h1
    have hstep : ∀ (L1 : Launcher), o.apply L = (L1, (o.apply L).2) →
        ((∀ k, (run ((o :: os).take k) L).1.getExit = true →
            (run ((o :: os).take k) L).1.Terminated = true)
          ↔ (∀ k, (run (os.take k) L1).1.getExit = true →
            (run (os.take k) L1).1.Terminated = true)) := by
      intro L1 h1
      have h1f : (o.apply L).1 = L1 := by rw [h1]
      constructor
      · intro h k
        have := h (k + 1)
        simpa [run, h1f] using this
      · intro h k
        cases k with
        | zero => simp [run, Launcher.getExit, hE]
        | succ j => simpa [run, h1f] using h j
    cases o with
    | Abort =>
      rw [hstep L.Abort.1 rfl]
      simpa [exitAfterShutdown] using hmono _ (Abort_Shutdown L)
    | StaticAbort =>
      rw [hstep L.Abort.1 rfl]
      simpa [exitAfterShutdown] using hmono _ (Abort_Shutdown L)
    | destructor =>
      rw [hstep L.Abort.1 (by simp [Op.apply, destructor_of_not_Shutdown L hS])]
      simpa [exitAfterShutdown] using hmono _ (Abort_Shutdown L)
    | setExit b =>
      cases b with
      | true =>
        simp only [exitAfterShutdown]
        constructor
        · intro h
          have := h 1
          simp [run, Op.apply, Launcher.setExit, Launcher.getExit, Launcher.Terminated, hS] at this
        · intro h; cases h
      | false =>
        rw [hstep (L.setExit false).1 rfl]
        simpa [exitAfterShutdown] using ih (L.setExit false).1 hS rfl

/-- Witness for the amended C5: `setExit(false)`, a signal-driven `StaticAbort`,
then `setExit(true)`, from the initial state. -/
theorem Exit_only_after_Shutdown_witness :
    (∀ k, (run ([Op.setExit false, Op.StaticAbort, Op.setExit true].take k)
        Launcher.initial).1.getExit = true →
      (run ([Op.setExit false, Op.StaticAbort, Op.setExit true].take k)
        Launcher.initial).1.Terminated = true)
      ↔ exitAfterShutdown [Op.setExit false, Op.StaticAbort, Op.setExit true] = true :=
  Exit_only_after_Shutdown Launcher.initial
    [Op.setExit false, Op.StaticAbort, Op.setExit true] rfl rfl

/-! ## IPC relay: proofs -/

/-- A pass of `ListenIPC` that loads the flag true ends the loop. -/
theorem ListenIPC_stops (HandleIPC : Bytes → Outcome) (ServerSend : Bytes → Bool → Outcome)
    (shutdownAt : Nat → Bool) (recvAt : Nat → Option Bytes) (fuel i : Nat)
    (h : shutdownAt i = true) :
    ListenIPC HandleIPC ServerSend shutdownAt recvAt (fuel + 1) i
      = some ([], Outcome.returned) := by
  simp [ListenIPC, h]

/-- A pass of `ListenIPC` that loads the flag false runs the loop body on what
was received: the effects of the loop from that pass on start with the effects
of the body. -/
theorem ListenIPC_runs_body (HandleIPC : Bytes → Outcome) (ServerSend : Bytes → Bool → Outcome)
    (shutdownAt : Nat → Bool) (recvAt : Nat → Option Bytes) (fuel i : Nat)
    (r : List Effect × Outcome) (h : shutdownAt i = false)
    (hr : ListenIPC HandleIPC ServerSend shutdownAt recvAt (fuel + 1) i = some r) :
    (ListenIPCBody HandleIPC ServerSend (recvAt i)).1 <+: r.1 := by
  simp only [ListenIPC, h, Bool.not_false, if_true] at hr
  rcases hb : ListenIPCBody HandleIPC ServerSend (recvAt i) with ⟨t, o⟩
  rw [hb] at hr
  cases o with
  | threw e =>
    simp only [Option.some.injEq] at hr
    subst hr
    exact List.prefix_refl t
  | returned =>
    simp only at hr
    cases hrest : ListenIPC HandleIPC ServerSend shutdownAt recvAt fuel (i + 1) with
    | none => simp [hrest] at hr
    | some r2 =>
      simp only [hrest, Option.some.injEq] at hr
      subst hr
      exact List.prefix_append t r2.1

/-- C1: for a non-empty message received without timeout, tag `'C'` gives
exactly one `HandleIPC` call, on the message without its first byte, and no
`ServerSend`; any other tag gives exactly one `ServerSend` call, on the
message without its first byte and with flag false, and no `HandleIPC`. -/
theorem ListenIPC_dispatch (HandleIPC : Bytes → Outcome) (ServerSend : Bytes → Bool → Outcome)
    (m : Bytes) (hm : m ≠ []) :
    (at0 m = 'C' →
      (ListenIPCBody HandleIPC ServerSend (some m)).1.count (Effect.handleIPC m.tail) = 1
      ∧ (ListenIPCBody HandleIPC ServerSend (some m)).1.countP Effect.isDispatch = 1
      ∧ ∀ q f, Effect.serverSend q f ∉ (ListenIPCBody HandleIPC ServerSend (some m)).1)
    ∧ (at0 m ≠ 'C' →
      (ListenIPCBody HandleIPC ServerSend (some m)).1.count (Effect.serverSend m.tail false) = 1
      ∧ (ListenIPCBody HandleIPC ServerSend (some m)).1.countP Effect.isDispatch = 1
      ∧ ∀ q, Effect.handleIPC q ∉ (ListenIPCBody HandleIPC ServerSend (some m)).1) := by
  cases m with
  | nil => exact absurd rfl hm
  | cons c p =>
    constructor
    · intro hc
      have hc2 : c = 'C' := by simpa [at0] using hc
      subst hc2
      cases hH : HandleIPC p <;>
        simp [ListenIPCBody, at0, substr1, hH, Effect.isDispatch, List.countP_cons]
    · intro hc
      have hc2 : ¬ c = 'C' := by simpa [at0] using hc
      cases hS : ServerSend p false <;>
        simp [ListenIPCBody, at0, substr1, hc2, hS, Effect.isDispatch, List.countP_cons]

/-- Witness for C1: `"Chello"` gives `HandleIPC("hello")` and no `ServerSend`;
`"Gworld"` gives `ServerSend("world", false)` and no `HandleIPC`. -/
theorem ListenIPC_dispatch_witness :
    ((ListenIPCBody alwaysReturns relayReturns (some "Chello".toList)).1.count
        (Effect.handleIPC "hello".toList) = 1
      ∧ (ListenIPCBody alwaysReturns relayReturns (some "Chello".toList)).1.countP
        Effect.isDispatch = 1
      ∧ ∀ q f, Effect.serverSend q f ∉
        (ListenIPCBody alwaysReturns relayReturns (some "Chello".toList)).1)
    ∧ ((ListenIPCBody alwaysReturns relayReturns (some "Gworld".toList)).1.count
        (Effect.serverSend "world".toList false) = 1
      ∧ (ListenIPCBody alwaysReturns relayReturns (some "Gworld".toList)).1.countP
        Effect.isDispatch = 1
      ∧ ∀ q, Effect.handleIPC q ∉
        (ListenIPCBody alwaysReturns relayReturns (some "Gworld".toList)).1) :=
  ⟨(ListenIPC_dispatch alwaysReturns relayReturns "Chello".toList (by decide)).1 (by decide),
    (ListenIPC_dispatch alwaysReturns relayReturns "Gworld".toList (by decide)).2 (by decide)⟩

/-- C7: in one pass of the relay loop, a timed-out receive is followed by no
dispatch and no acknowledgment.  A pass that received a message ends as its
dispatch statement ends; when it returns there is one dispatch and one
`confirm_receive`, which is the last effect; when it raises there is no
`confirm_receive`.  In every pass no dispatch follows a `confirm_receive`,
which in turn is only present together with a dispatch that returned. -/
theorem ListenIPC_ack_after_dispatch (HandleIPC : Bytes → Outcome)
    (ServerSend : Bytes → Bool → Outcome) (received : Option Bytes) :
    (received = none →
      (ListenIPCBody HandleIPC ServerSend received).1.countP Effect.isDispatch = 0
      ∧ (ListenIPCBody HandleIPC ServerSend received).1.count Effect.confirmReceive = 0
      ∧ (ListenIPCBody HandleIPC ServerSend received).2 = Outcome.returned)
    ∧ (∀ m, received = some m →
      (ListenIPCBody HandleIPC ServerSend received).2 = dispatchOutcome HandleIPC ServerSend m)
    ∧ (∀ m, received = some m →
        (ListenIPCBody HandleIPC ServerSend received).2 = Outcome.returned →
      (ListenIPCBody HandleIPC ServerSend received).1.countP Effect.isDispatch = 1
      ∧ (ListenIPCBody HandleIPC ServerSend received).1.count Effect.confirmReceive = 1
      ∧ (ListenIPCBody HandleIPC ServerSend received).1.getLast? = some Effect.confirmReceive)
    ∧ (∀ m e, received = some m →
        (ListenIPCBody HandleIPC ServerSend received).2 = Outcome.threw e →
      Effect.confirmReceive ∉ (ListenIPCBody HandleIPC ServerSend received).1
      ∧ (ListenIPCBody HandleIPC ServerSend received).1.countP Effect.isDispatch
          = (if m = [] then 0 else 1))
    ∧ (ListenIPCBody HandleIPC ServerSend received).1.Pairwise
        (fun a b => ¬ (a = Effect.confirmReceive ∧ b.isDispatch = true))
    ∧ (Effect.confirmReceive ∈ (ListenIPCBody HandleIPC ServerSend received).1 →
        (ListenIPCBody HandleIPC ServerSend received).2 = Outcome.returned
        ∧ (ListenIPCBody HandleIPC ServerSend received).1.countP Effect.isDispatch = 1) := by
  refine ⟨?_, ?_, ?_, ?_, ?_, ?_⟩
  · intro h
    subst h
    simp [ListenIPCBody, Effect.isDispatch]
  · intro m hr
    subst hr
    cases m with
    | nil => simp [ListenIPCBody, dispatchOutcome, at0, substr1]
    | cons c p =>
      by_cases hc : c = 'C'
      · subst hc
        cases hH : HandleIPC p <;> simp [ListenIPCBody, dispatchOutcome, at0, substr1, hH]
      · cases hS : ServerSend p false <;>
          simp [ListenIPCBody, dispatchOutcome, at0, substr1, hc, hS]
  · intro m hr ho
    subst hr
    cases m with
    | nil => simp [ListenIPCBody, at0, substr1] at ho
    | cons c p =>
      by_cases hc : c = 'C'
      · subst hc
        cases hH : HandleIPC p with
        | threw e => simp [ListenIPCBody, at0, substr1, hH] at ho
        | returned => simp [ListenIPCBody, at0, substr1, hH, Effect.isDispatch, List.countP_cons]
      · cases hS : ServerSend p false with
        | threw e => simp [ListenIPCBody, at0, substr1, hc, hS] at ho
        | returned =>
          simp [ListenIPCBody, at0, substr1, hc, hS, Effect.isDispatch, List.countP_cons]
  · intro m e hr ho
    subst hr
    cases m with
    | nil => simp [ListenIPCBody, at0, substr1, Effect.isDispatch]
    | cons c p =>
      by_cases hc : c = 'C'
      · subst hc
        cases hH : HandleIPC p with
        | threw e1 => simp [ListenIPCBody, at0, substr1, hH, Effect.isDispatch, List.countP_cons]
        | returned => simp [ListenIPCBody, at0, substr1, hH] at ho
      · cases hS : ServerSend p false with
        | threw e1 =>
          simp [ListenIPCBody, at0, substr1, hc, hS, Effect.isDispatch, List.countP_cons]
        | returned => simp [ListenIPCBody, at0, substr1, hc, hS] at ho
  · cases received with
    | none => simp [ListenIPCBody]
    | some m =>
      cases m with
      | nil => simp [ListenIPCBody, at0, substr1]
      | cons c p =>
        by_cases hc : c = 'C'
        · subst hc
          cases hH : HandleIPC p <;>
            simp [ListenIPCBody, at0, substr1, hH, Effect.isDispatch]
        · cases hS : ServerSend p false <;>
            simp [ListenIPCBody, at0, substr1, hc, hS, Effect.isDispatch]
  · cases received with
    | none => simp [ListenIPCBody]
    | some m =>
      cases m with
      | nil => simp [ListenIPCBody, at0, substr1]
      | cons c p =>
        by_cases hc : c = 'C'
        · subst hc
          cases hH : HandleIPC p <;>
            simp [ListenIPCBody, at0, substr1, hH, Effect.isDispatch, List.countP_cons]
        · cases hS : ServerSend p false <;>
            simp [ListenIPCBody, at0, substr1, hc, hS, Effect.isDispatch, List.countP_cons]

/-- Witness for C7: the message `"Chello"` with a command handler that raises
is dispatched once and never acknowledged. -/
theorem ListenIPC_ack_after_dispatch_witness :
    (ListenIPCBody alwaysThrows relayReturns (some "Chello".toList)).2
      = Outcome.threw "handler failed"
    ∧ Effect.confirmReceive ∉ (ListenIPCBody alwaysThrows relayReturns (some "Chello".toList)).1
    ∧ (ListenIPCBody alwaysThrows relayReturns (some "Chello".toList)).1.countP
        Effect.isDispatch = (if "Chello".toList = [] then 0 else 1) :=
  ⟨by decide,
    (ListenIPC_ack_after_dispatch alwaysThrows relayReturns (some "Chello".toList)).2.2.2.1
      "Chello".toList "handler failed" rfl (by decide)⟩

/-! ## Several threads inside `SendIPC`: proofs -/

theorem sentOf_append_self (done : List (Nat × SendCall)) (i : Nat) (c : SendCall) :
    sentOf (done ++ [(i, c)]) i = sentOf done i ++ [c] := by
  simp [sentOf, List.filter_append]

theorem sentOf_append_other (done : List (Nat × SendCall)) (i j : Nat) (c : SendCall)
    (h : ¬ i = j) : sentOf (done ++ [(i, c)]) j = sentOf done j := by
  simp [sentOf, List.filter_append, h]

theorem Senders.init_Inv (calls : Nat → List SendCall) : (Senders.init calls).Inv calls := by
  refine ⟨?_, ?_, [], rfl, ?_⟩
  · intro i h
    exact absurd rfl h
  · intro i c r h
    simp [Senders.init] at h
  · intro i
    simp [Senders.init, Senders.pending, sentOf]

/-- Under the mutex every step of every thread keeps `Senders.Inv`. -/
theorem Senders.step_Inv (calls : Nat → List SendCall) (s : Senders) (i : Nat)
    (h : s.Inv calls) : (s.step true i).Inv calls := by
  obtain ⟨hL, hB, done, hD, hC⟩ := h
  have hother : ∀ j, ¬ j = i → s.pc i ≠ PC.idle → s.pc j = PC.idle := by
    intro j hji hi
    by_contra hj
    have h1 := hL i hi
    have h2 := hL j hj
    rw [h1] at h2
    exact hji (Option.some.inj h2).symm
  cases hpc : s.pc i with
  | idle =>
    cases htodo : s.todo i with
    | nil =>
      have hstep : s.step true i = s := by simp [Senders.step, hpc, htodo]
      rw [hstep]
      exact ⟨hL, hB, done, hD, hC⟩
    | cons c rest =>
      by_cases hlock : s.Lock = none
      · have hstep : s.step true i =
            { s with Lock := some i, pc := upd s.pc i (PC.locked c),
                     todo := upd s.todo i rest } := by
          simp [Senders.step, hpc, htodo, hlock]
        rw [hstep]
        refine ⟨?_, ?_, done, hD, ?_⟩
        · intro j hj
          by_cases hji : j = i
          · subst hji; rfl
          · have hj2 : s.pc j ≠ PC.idle := by simpa [upd, hji] using hj
            have := hL j hj2
            rw [hlock] at this
            cases this
        · intro j c1 r hj
          by_cases hji : j = i
          · subst hji
            simp [upd] at hj
          · have hj2 : s.pc j = PC.sending c1 r := by simpa [upd, hji] using hj
            exact hB j c1 r hj2
        · intro j
          by_cases hji : j = i
          · subst hji
            have := hC j
            simpa [Senders.pending, upd, hpc, htodo] using this
          · have := hC j
            simpa [Senders.pending, upd, hji] using this
      · have hstep : s.step true i = s := by simp [Senders.step, hpc, htodo, hlock]
        rw [hstep]
        exact ⟨hL, hB, done, hD, hC⟩
  | locked c =>
    have hi : s.pc i ≠ PC.idle := by rw [hpc]; exact fun h => PC.noConfusion h
    have hstep : s.step true i =
        { s with IPCToGame := s.IPCToGame.start,
                 pc := upd s.pc i
                   (PC.sending c (if c.core then 'C' :: c.Data else 'G' :: c.Data)) } := by
      simp [Senders.step, hpc]
    rw [hstep]
    refine ⟨?_, ?_, done, hD, ?_⟩
    · intro j hj
      by_cases hji : j = i
      · subst hji; exact hL j hi
      · have hj2 : s.pc j ≠ PC.idle := by simpa [upd, hji] using hj
        exact hL j hj2
    · intro j c1 r hj
      by_cases hji : j = i
      · subst hji
        simp only [upd, if_true, PC.sending.injEq] at hj
        obtain ⟨hc, hr⟩ := hj
        subst hc
        subst hr
        cases hcore : c.core <;> simp [Channel.start, SendCall.frame, hcore]
      · have hj2 : s.pc j = PC.sending c1 r := by simpa [upd, hji] using hj
        rw [hother j hji hi] at hj2
        cases hj2
    · intro j
      by_cases hji : j = i
      · subst hji
        have := hC j
        simpa [Senders.pending, upd, hpc] using this
      · have := hC j
        simpa [Senders.pending, upd, hji] using this
  | sending c rest =>
    have hi : s.pc i ≠ PC.idle := by rw [hpc]; exact fun h => PC.noConfusion h
    cases rest with
    | cons b r =>
      have hstep : s.step true i =
          { s with IPCToGame := s.IPCToGame.put b, pc := upd s.pc i (PC.sending c r) } := by
        simp [Senders.step, hpc]
      rw [hstep]
      refine ⟨?_, ?_, done, hD, ?_⟩
      · intro j hj
        by_cases hji : j = i
        · subst hji; exact hL j hi
        · have hj2 : s.pc j ≠ PC.idle := by simpa [upd, hji] using hj
          exact hL j hj2
      · intro j c1 r1 hj
        by_cases hji : j = i
        · subst hji
          simp only [upd, if_true, PC.sending.injEq] at hj
          obtain ⟨hc, hr⟩ := hj
          subst hc
          subst hr
          have := hB j c (b :: r) hpc
          simpa [Channel.put] using this
        · have hj2 : s.pc j = PC.sending c1 r1 := by simpa [upd, hji] using hj
          rw [hother j hji hi] at hj2
          cases hj2
      · intro j
        by_cases hji : j = i
        · subst hji
          have := hC j
          simpa [Senders.pending, upd, hpc] using this
        · have := hC j
          simpa [Senders.pending, upd, hji] using this
    | nil =>
      have hstep : s.step true i =
          { s with IPCToGame := s.IPCToGame.handOver, pc := upd s.pc i (PC.sent c) } := by
        simp [Senders.step, hpc]
      rw [hstep]
      have hbuf : s.IPCToGame.buffer = c.frame := by
        simpa using hB i c [] hpc
      refine ⟨?_, ?_, done ++ [(i, c)], ?_, ?_⟩
      · intro j hj
        by_cases hji : j = i
        · subst hji; exact hL j hi
        · have hj2 : s.pc j ≠ PC.idle := by simpa [upd, hji] using hj
          exact hL j hj2
      · intro j c1 r1 hj
        by_cases hji : j = i
        · subst hji
          simp [upd] at hj
        · have hj2 : s.pc j = PC.sending c1 r1 := by simpa [upd, hji] using hj
          rw [hother j hji hi] at hj2
          cases hj2
      · simp [Channel.handOver, hD, hbuf]
      · intro j
        by_cases hji : j = i
        · subst hji
          have := hC j
          rw [sentOf_append_self]
          simpa [Senders.pending, upd, hpc] using this
        · have := hC j
          rw [sentOf_append_other done i j c (fun h => hji h.symm)]
          simpa [Senders.pending, upd, hji] using this
  | sent c =>
    have hi : s.pc i ≠ PC.idle := by rw [hpc]; exact fun h => PC.noConfusion h
    have hstep : s.step true i =
        { s with logged := s.logged ++
                   (if c.timedOut then
                     [Effect.log Level.WARNING
                       ("Timed out while sending \"" ++ String.mk c.Data ++ "\"")]
                   else []),
                 pc := upd s.pc i (PC.checked c) } := by
      simp [Senders.step, hpc]
    rw [hstep]
    refine ⟨?_, ?_, done, hD, ?_⟩
    · intro j hj
      by_cases hji : j = i
      · subst hji; exact hL j hi
      · have hj2 : s.pc j ≠ PC.idle := by simpa [upd, hji] using hj
        exact hL j hj2
    · intro j c1 r1 hj
      by_cases hji : j = i
      · subst hji
        simp [upd] at hj
      · have hj2 : s.pc j = PC.sending c1 r1 := by simpa [upd, hji] using hj
        exact hB j c1 r1 hj2
    · intro j
      by_cases hji : j = i
      · subst hji
        have := hC j
        simpa [Senders.pending, upd, hpc] using this
      · have := hC j
        simpa [Senders.pending, upd, hji] using this
  | checked c =>
    have hi : s.pc i ≠ PC.idle := by rw [hpc]; exact fun h => PC.noConfusion h
    have hstep : s.step true i =
        { s with Lock := none, pc := upd s.pc i PC.idle } := by
      simp [Senders.step, hpc]
    rw [hstep]
    refine ⟨?_, ?_, done, hD, ?_⟩
    · intro j hj
      by_cases hji : j = i
      · subst hji
        simp [upd] at hj
      · have hj2 : s.pc j ≠ PC.idle := by simpa [upd, hji] using hj
        exact absurd (hother j hji hi) hj2
    · intro j c1 r1 hj
      by_cases hji : j = i
      · subst hji
        simp [upd] at hj
      · have hj2 : s.pc j = PC.sending c1 r1 := by simpa [upd, hji] using hj
        exact hB j c1 r1 hj2
    · intro j
      by_cases hji : j = i
      · subst hji
        have := hC j
        simpa [Senders.pending, upd, hpc] using this
      · have := hC j
        simpa [Senders.pending, upd, hji] using this

/-- Under the mutex every schedule keeps `Senders.Inv`. -/
theorem Senders.run_Inv (calls : Nat → List SendCall) (sched : List Nat) :
    ∀ s : Senders, s.Inv calls → (Senders.run true sched s).Inv calls := by
  induction sched with
  | nil => intro s h; exact h
  | cons i rest ih => intro s h; exact ih _ (Senders.step_Inv calls s i h)

theorem upd_upd {α : Type} (f : Nat → α) (i : Nat) (a b : α) :
    upd (upd f i a) i b = upd f i b := by
  funext j
  by_cases h : j = i <;> simp [upd, h]

theorem upd_self {α : Type} (f : Nat → α) (i : Nat) (a : α) (h : f i = a) :
    upd f i a = f := by
  funext j
  by_cases hj : j = i
  · subst hj; simp [upd, h]
  · simp [upd, hj]

/-- A thread that is copying a frame and runs alone copies the rest of it. -/
theorem Senders.run_copies (mutex : Bool) (c : SendCall) (i : Nat) :
    ∀ (r : Bytes) (s : Senders), s.pc i = PC.sending c r →
      Senders.run mutex (List.replicate r.length i) s =
        { s with IPCToGame := { s.IPCToGame with buffer := s.IPCToGame.buffer ++ r },
                 pc := upd s.pc i (PC.sending c []) } := by
  intro r
  induction r with
  | nil =>
    intro s h
    simp [Senders.run, upd_self s.pc i _ h]
  | cons b r ih =>
    intro s h
    have hstep : s.step mutex i =
        { s with IPCToGame := s.IPCToGame.put b, pc := upd s.pc i (PC.sending c r) } := by
      simp [Senders.step, h]
    simp only [List.length_cons, List.replicate_succ, Senders.run, hstep]
    rw [ih _ (by simp [upd])]
    simp [Channel.put, upd_upd]

/-- A thread that runs alone takes one call through the whole body: the frame
handed over is the frame of `SendIPC`, the warning logged is its warning, and
the mutex is free again. -/
theorem Senders.run_solo (c : SendCall) :
    (Senders.run true (List.replicate (c.Data.length + 6) 0)
        (Senders.init (soloCall c))).IPCToGame.delivered
      = frames (SendIPC c.Data c.core c.timedOut).1
    ∧ (Senders.run true (List.replicate (c.Data.length + 6) 0)
        (Senders.init (soloCall c))).logged
      = (SendIPC c.Data c.core c.timedOut).1.filter Effect.isLog
    ∧ (Senders.run true (List.replicate (c.Data.length + 6) 0)
        (Senders.init (soloCall c))).Lock = none
    ∧ (Senders.run true (List.replicate (c.Data.length + 6) 0)
        (Senders.init (soloCall c))).pc 0 = PC.idle := by
  have hlen : c.Data.length + 6
      = 2 + ((if c.core then 'C' :: c.Data else 'G' :: c.Data).length + 3) := by
    cases c.core <;> simp <;> omega
  have hsplit : ∀ (a b : Nat) (s : Senders),
      Senders.run true (List.replicate (a + b) 0) s
        = Senders.run true (List.replicate b 0) (Senders.run true (List.replicate a 0) s) := by
    intro a
    induction a with
    | zero => intro b s; simp [Senders.run]
    | succ a ih =>
      intro b s
      rw [Nat.succ_add, List.replicate_succ, List.replicate_succ]
      simp only [Senders.run]
      exact ih b _
  rw [hlen, hsplit 2, hsplit _ 3]
  have h2 : Senders.run true (List.replicate 2 0) (Senders.init (soloCall c)) =
      { Lock := some 0, IPCToGame := { buffer := [], delivered := [] }, logged := [],
        pc := upd (fun _ => PC.idle) 0
          (PC.sending c (if c.core then 'C' :: c.Data else 'G' :: c.Data)),
        todo := upd (soloCall c) 0 [] } := by
    simp [List.replicate, Senders.run, Senders.step, Senders.init, soloCall, upd, Channel.start,
      upd_upd]
  rw [h2, Senders.run_copies true c 0 _ _ (by simp [upd])]
  cases hcore : c.core <;> cases hto : c.timedOut <;>
    simp [List.replicate, Senders.run, Senders.step, upd, Channel.handOver, SendIPC, frames,
      Effect.isLog, hcore, hto]

/-- C3: one call of `SendIPC` takes the mutex first, writes exactly one frame,
`'C'` followed by the payload for a core message and `'G'` followed by it
otherwise, releases the mutex last and returns, whether or not the send timed
out.  When any number of threads run through `SendIPC` step by step, in any
schedule, the frames handed to the channel are whole frames of calls, each
call accounting for at most one frame and every thread's frames following the
order of its calls; a thread that gets to run finishes its call with exactly
its frame handed over.  For two threads sending `"ping"` as core and `"pong"`
as game message every frame is `"Cping"` or `"Gpong"`. -/
theorem SendIPC_one_whole_frame :
    (∀ (Data : Bytes) (core timedOut : Bool),
      frames (SendIPC Data core timedOut).1 = [(if core then 'C' else 'G') :: Data]
      ∧ (SendIPC Data core timedOut).2 = Outcome.returned)
    ∧ (∀ calls : List SendCall, frames (sendAll calls) = calls.map SendCall.frame)
    ∧ frames (sendAll [⟨"ping".toList, true, true⟩, ⟨"pong".toList, false, false⟩])
        = ["Cping".toList, "Gpong".toList]
    ∧ (∀ (Data : Bytes) (core timedOut : Bool),
      (SendIPC Data core timedOut).1.head? = some Effect.lockMutex
      ∧ (SendIPC Data core timedOut).1.getLast? = some Effect.unlockMutex
      ∧ (SendIPC Data core timedOut).1.count Effect.lockMutex = 1
      ∧ (SendIPC Data core timedOut).1.count Effect.unlockMutex = 1)
    ∧ (∀ (calls : Nat → List SendCall) (sched : List Nat),
      ∃ done : List (Nat × SendCall),
        (Senders.run true sched (Senders.init calls)).IPCToGame.delivered
          = done.map (fun d => d.2.frame)
        ∧ ∀ i, sentOf done i <+: calls i)
    ∧ (∀ (calls : Nat → List SendCall) (sched : List Nat) (f : Bytes),
      f ∈ (Senders.run true sched (Senders.init calls)).IPCToGame.delivered →
        ∃ i c, c ∈ calls i ∧ f = c.frame)
    ∧ (∀ (t0 t1 : Bool) (sched : List Nat) (f : Bytes),
      f ∈ (Senders.run true sched (Senders.init (pingPong t0 t1))).IPCToGame.delivered →
        f = "Cping".toList ∨ f = "Gpong".toList)
    ∧ (∀ c : SendCall,
      (Senders.run true (List.replicate (c.Data.length + 6) 0)
        (Senders.init (soloCall c))).IPCToGame.delivered = [c.frame])
    ∧ (Senders.run true [0, 0, 0, 1, 0, 1, 0, 0, 1, 0, 0, 0, 0, 1, 1, 1, 1, 1, 1, 1, 1, 1, 1]
        (Senders.init (pingPong true false))).IPCToGame.delivered
        = ["Cping".toList, "Gpong".toList] := by
  have hone : ∀ (Data : Bytes) (core timedOut : Bool),
      frames (SendIPC Data core timedOut).1 = [(if core then 'C' else 'G') :: Data] := by
    intro Data core timedOut
    cases core <;> cases timedOut <;> simp [SendIPC, frames]
  have happ : ∀ (t u : List Effect), frames (t ++ u) = frames t ++ frames u := by
    intro t u
    induction t with
    | nil => rfl
    | cons e es ih => cases e <;> simp [frames, ih]
  have hall : ∀ calls : List SendCall, frames (sendAll calls) = calls.map SendCall.frame := by
    intro calls
    induction calls with
    | nil => rfl
    | cons c cs ih => simp [sendAll, happ, hone, ih, SendCall.frame]
  have hsafe : ∀ (calls : Nat → List SendCall) (sched : List Nat),
      ∃ done : List (Nat × SendCall),
        (Senders.run true sched (Senders.init calls)).IPCToGame.delivered
          = done.map (fun d => d.2.frame)
        ∧ ∀ i, sentOf done i <+: calls i := by
    intro calls sched
    obtain ⟨_, _, done, hD, hC⟩ := Senders.run_Inv calls sched _ (Senders.init_Inv calls)
    exact ⟨done, hD, fun i => ⟨_, (hC i).symm⟩⟩
  have hmem : ∀ (calls : Nat → List SendCall) (sched : List Nat) (f : Bytes),
      f ∈ (Senders.run true sched (Senders.init calls)).IPCToGame.delivered →
        ∃ i c, c ∈ calls i ∧ f = c.frame := by
    intro calls sched f hf
    obtain ⟨done, hD, hP⟩ := hsafe calls sched
    rw [hD] at hf
    obtain ⟨d, hd, hfd⟩ := List.mem_map.mp hf
    refine ⟨d.1, d.2, ?_, hfd.symm⟩
    apply (hP d.1).subset
    simp only [sentOf, List.mem_map, List.mem_filter, decide_eq_true_eq]
    exact ⟨d, ⟨hd, rfl⟩, rfl⟩
  refine ⟨fun Data core timedOut => ⟨hone Data core timedOut, rfl⟩, hall, ?_, ?_, hsafe, hmem,
    ?_, ?_, ?_⟩
  · rw [hall]
    decide
  · intro Data core timedOut
    cases core <;> cases timedOut <;> simp [SendIPC]
  · intro t0 t1 sched f hf
    obtain ⟨i, c, hc, hfc⟩ := hmem _ sched f hf
    by_cases h0 : i = 0
    · subst h0
      have : c = ⟨"ping".toList, true, t0⟩ := by simpa [pingPong] using hc
      subst this
      left
      rw [hfc]
      rfl
    · by_cases h1 : i = 1
      · subst h1
        have : c = ⟨"pong".toList, false, t1⟩ := by simpa [pingPong] using hc
        subst this
        right
        rw [hfc]
        rfl
      · simp [pingPong, h0, h1] at hc
  · intro c
    rw [(Senders.run_solo c).1, hone]
    rfl
  · decide

/-- The mutex is what keeps frames whole: the same two threads running through
the body without lines 147-148 can hand over a frame that is a mixture. -/
theorem SendIPC_without_mutex_mixes :
    (Senders.run false [0, 0, 0, 1, 1, 1, 0, 0, 0, 0, 0]
        (Senders.init (pingPong false false))).IPCToGame.delivered
      = ["Gping".toList] := by
  decide


/-- Witness for C3: in a schedule where thread 1 finds the mutex taken three
times before it gets in, the frame `"Gpong"` is handed over and is the frame of
a call of thread 1. -/
theorem SendIPC_one_whole_frame_witness :
    "Gpong".toList ∈
      (Senders.run true [0, 0, 0, 1, 0, 1, 0, 0, 1, 0, 0, 0, 0, 1, 1, 1, 1, 1, 1, 1, 1, 1, 1]
        (Senders.init (pingPong true false))).IPCToGame.delivered
    ∧ ∃ i c, c ∈ pingPong true false i ∧ "Gpong".toList = c.frame :=
  ⟨by decide,
    SendIPC_one_whole_frame.2.2.2.2.2.1 (pingPong true false)
      [0, 0, 0, 1, 0, 1, 0, 0, 1, 0, 0, 0, 0, 1, 1, 1, 1, 1, 1, 1, 1, 1, 1]
      "Gpong".toList (by decide)⟩

/-! ## Version gate: proofs -/

theorem VersionParser.lt_or_gt_iff_ne (a b : VersionParser) :
    (a.gt b = true ∨ a.lt b = true) ↔ a ≠ b := by
  obtain ⟨a1, a2, a3⟩ := a
  obtain ⟨b1, b2, b3⟩ := b
  simp only [VersionParser.gt, VersionParser.lt, Bool.or_eq_true, Bool.and_eq_true,
    decide_eq_true_eq, ne_eq, VersionParser.mk.injEq]
  omega

/-- C2: with no instance of the game running, `LaunchGame` raises the shutdown
exception and issues no shell launch exactly when the major components differ;
with equal majors it returns after exactly one shell launch, having logged one
warning when the versions are unequal and nothing when they are equal.  With an
instance running it raises and issues no shell launch, whatever the versions.
The four sample version pairs behave as listed. -/
theorem LaunchGame_version_gate (BeamVersion : String) (G S : VersionParser) :
    ((LaunchGame 0 BeamVersion G S).2 =
        (if G.major = S.major then Outcome.returned else Outcome.threw "Fatal Error"))
    ∧ ((LaunchGame 0 BeamVersion G S).1.countP Effect.isShellExecute =
        (if G.major = S.major then 1 else 0))
    ∧ ((LaunchGame 0 BeamVersion G S).1.countP Effect.isWarning =
        (if G.major = S.major ∧ G ≠ S then 1 else 0))
    ∧ ((LaunchGame 0 BeamVersion G S).1.countP Effect.isLog = (if G = S then 0 else 1))
    ∧ (∀ pid, (LaunchGame (pid + 1) BeamVersion G S).2 = Outcome.threw "Fatal Error"
        ∧ (LaunchGame (pid + 1) BeamVersion G S).1.countP Effect.isShellExecute = 0)
    ∧ (∀ x y z, (LaunchGame 0 BeamVersion ⟨0, 9, x⟩ ⟨1, y, z⟩).2 = Outcome.threw "Fatal Error"
        ∧ (LaunchGame 0 BeamVersion ⟨2, 0, x⟩ ⟨1, y, z⟩).2 = Outcome.threw "Fatal Error"
        ∧ (LaunchGame 0 BeamVersion ⟨1, 0, x⟩ ⟨1, 2, z⟩).2 = Outcome.returned
        ∧ (LaunchGame 0 BeamVersion ⟨1, 0, x⟩ ⟨1, 2, z⟩).1.countP Effect.isWarning = 1
        ∧ (LaunchGame 0 BeamVersion ⟨1, 5, x⟩ ⟨1, 2, z⟩).2 = Outcome.returned
        ∧ (LaunchGame 0 BeamVersion ⟨1, 5, x⟩ ⟨1, 2, z⟩).1.countP Effect.isWarning = 1) := by
  have key : ∀ (A B : VersionParser),
      ((LaunchGame 0 BeamVersion A B).2 =
          (if A.major = B.major then Outcome.returned else Outcome.threw "Fatal Error"))
      ∧ ((LaunchGame 0 BeamVersion A B).1.countP Effect.isShellExecute =
          (if A.major = B.major then 1 else 0))
      ∧ ((LaunchGame 0 BeamVersion A B).1.countP Effect.isWarning =
          (if A.major = B.major ∧ A ≠ B then 1 else 0))
      ∧ ((LaunchGame 0 BeamVersion A B).1.countP Effect.isLog = (if A = B then 0 else 1)) := by
    intro A B
    have hne := VersionParser.lt_or_gt_iff_ne A B
    have hmaj : A = B → A.major = B.major := fun h => by rw [h]
    by_cases h1 : B.major < A.major
    · have hAB : A ≠ B := fun h => by have := hmaj h; omega
      have hm : ¬ A.major = B.major := by omega
      simp [LaunchGame, VersionParser.data0, VersionParser.data, h1, hm, hAB,
        Effect.isShellExecute, Effect.isWarning, Effect.isLog, List.countP_cons]
    · by_cases h2 : A.major < B.major
      · have hAB : A ≠ B := fun h => by have := hmaj h; omega
        have hm : ¬ A.major = B.major := by omega
        simp [LaunchGame, VersionParser.data0, VersionParser.data, h1, h2, hm, hAB,
          Effect.isShellExecute, Effect.isWarning, Effect.isLog, List.countP_cons]
      · have hm : A.major = B.major := by omega
        by_cases h3 : A.gt B = true
        · have hAB : A ≠ B := hne.mp (Or.inl h3)
          simp [LaunchGame, VersionParser.data0, VersionParser.data, h1, h2, h3, hm, hAB,
            Effect.isShellExecute, Effect.isWarning, Effect.isLog, List.countP_cons]
        · by_cases h4 : A.lt B = true
          · have hAB : A ≠ B := hne.mp (Or.inr h4)
            simp [LaunchGame, VersionParser.data0, VersionParser.data, h1, h2, h3, h4, hm, hAB,
              Effect.isShellExecute, Effect.isWarning, Effect.isLog, List.countP_cons]
          · have hAB : A = B := by
              by_contra hcon
              rcases hne.mpr hcon with h | h
              · exact h3 h
              · exact h4 h
            subst hAB
            simp [LaunchGame, VersionParser.data0, VersionParser.data, h3, h4,
              Effect.isShellExecute, Effect.isWarning, Effect.isLog, List.countP_cons]
  refine ⟨(key G S).1, (key G S).2.1, (key G S).2.2.1, (key G S).2.2.2, ?_, ?_⟩
  · intro pid
    simp [LaunchGame, Effect.isShellExecute, List.countP_cons]
  · intro x y z
    refine ⟨?_, ?_, ?_, ?_, ?_, ?_⟩
    · simpa using (key ⟨0, 9, x⟩ ⟨1, y, z⟩).1
    · simpa using (key ⟨2, 0, x⟩ ⟨1, y, z⟩).1
    · simpa using (key ⟨1, 0, x⟩ ⟨1, 2, z⟩).1
    · simpa using (key ⟨1, 0, x⟩ ⟨1, 2, z⟩).2.2.1
    · simpa using (key ⟨1, 5, x⟩ ⟨1, 2, z⟩).1
    · simpa using (key ⟨1, 5, x⟩ ⟨1, 2, z⟩).2.2.1

/-! ## Waiting for the game: proofs -/

/-- The discovery loop while no process appears: `n` passes read the flag
false, the next one reads it true. -/
theorem discoveryLoop_until_shutdown (env : Env) (n : Nat) :
    ∀ (w : Wait) (fuel : Nat), n < fuel →
      (∀ k, k ≤ n → env.pidAt (w.queries + k) = 0) →
      (∀ k, k < n → env.shutdownAt (w.loads + k) = false) →
      env.shutdownAt (w.loads + n) = true →
      discoveryLoop env fuel w =
        some { w with GamePID := 0, queries := w.queries + (n + 1),
                      loads := w.loads + (n + 1), sleeps := w.sleeps + (n + 1) } := by
  induction n with
  | zero =>
    intro w fuel hf hp _ ht
    obtain ⟨f, rfl⟩ : ∃ f, fuel = f + 1 := ⟨fuel - 1, by omega⟩
    have h0 : env.pidAt w.queries = 0 := by simpa using hp 0 (Nat.le_refl 0)
    have h1 : env.shutdownAt w.loads = true := by simpa using ht
    simp [discoveryLoop, h0, h1]
  | succ n ih =>
    intro w fuel hf hp hs ht
    obtain ⟨f, rfl⟩ : ∃ f, fuel = f + 1 := ⟨fuel - 1, by omega⟩
    have h0 : env.pidAt w.queries = 0 := by simpa using hp 0 (Nat.zero_le _)
    have h1 : env.shutdownAt w.loads = false := by simpa using hs 0 (Nat.succ_pos n)
    have hrec := ih { w with GamePID := 0, queries := w.queries + 1, loads := w.loads + 1,
                             sleeps := w.sleeps + 1 } f (by omega)
      (fun k hk => by
        have := hp (k + 1) (by omega)
        simpa [Nat.add_assoc, Nat.add_comm 1 k] using this)
      (fun k hk => by
        have := hs (k + 1) (by omega)
        simpa [Nat.add_assoc, Nat.add_comm 1 k] using this)
      (by simpa [Nat.add_assoc, Nat.add_comm 1 n] using ht)
    simp only [discoveryLoop, h0, h1, if_true, Bool.not_false]
    rw [hrec]
    simp only [Nat.add_assoc, Nat.add_comm 1 (n + 1)]

/-- The discovery loop when a process appears at query `d` and the flag was
read false in the passes before. -/
theorem discoveryLoop_until_found (env : Env) (d : Nat) :
    ∀ (w : Wait) (fuel : Nat), d < fuel →
      (∀ k, k < d → env.pidAt (w.queries + k) = 0) →
      (∀ k, k < d → env.shutdownAt (w.loads + k) = false) →
      env.pidAt (w.queries + d) ≠ 0 →
      discoveryLoop env fuel w =
        some { w with GamePID := env.pidAt (w.queries + d), queries := w.queries + (d + 1),
                      loads := w.loads + d, sleeps := w.sleeps + (d + 1) } := by
  induction d with
  | zero =>
    intro w fuel hf _ _ hne
    obtain ⟨f, rfl⟩ : ∃ f, fuel = f + 1 := ⟨fuel - 1, by omega⟩
    have h0 : env.pidAt w.queries ≠ 0 := by simpa using hne
    simp [discoveryLoop, h0]
  | succ d ih =>
    intro w fuel hf hp hs hne
    obtain ⟨f, rfl⟩ : ∃ f, fuel = f + 1 := ⟨fuel - 1, by omega⟩
    have h0 : env.pidAt w.queries = 0 := by simpa using hp 0 (Nat.succ_pos d)
    have h1 : env.shutdownAt w.loads = false := by simpa using hs 0 (Nat.succ_pos d)
    have hrec := ih { w with GamePID := 0, queries := w.queries + 1, loads := w.loads + 1,
                             sleeps := w.sleeps + 1 } f (by omega)
      (fun k hk => by
        have := hp (k + 1) (by omega)
        simpa [Nat.add_assoc, Nat.add_comm 1 k] using this)
      (fun k hk => by
        have := hs (k + 1) (by omega)
        simpa [Nat.add_assoc, Nat.add_comm 1 k] using this)
      (by simpa [Nat.add_assoc, Nat.add_comm 1 d] using hne)
    simp only [discoveryLoop, h0, h1, if_true, Bool.not_false]
    rw [hrec]
    simp only [Nat.add_assoc, Nat.add_comm 1 d, Nat.add_comm 1 (d + 1)]

/-- The liveness loop while the flag is read false: `m` polls find the
process, the next one does not. -/
theorem livenessLoop_until_lost (env : Env) (m : Nat) :
    ∀ (w : Wait) (fuel : Nat), m < fuel →
      (∀ k, k ≤ m → env.shutdownAt (w.loads + k) = false) →
      (∀ k, k < m → env.pidAt (w.queries + k) ≠ 0) →
      env.pidAt (w.queries + m) = 0 →
      livenessLoop env fuel w =
        some { w with queries := w.queries + (m + 1), loads := w.loads + (m + 1),
                      sleeps := w.sleeps + m } := by
  induction m with
  | zero =>
    intro w fuel hf hs _ hz
    obtain ⟨f, rfl⟩ : ∃ f, fuel = f + 1 := ⟨fuel - 1, by omega⟩
    have h0 : env.shutdownAt w.loads = false := by simpa using hs 0 (Nat.le_refl 0)
    have h1 : env.pidAt w.queries = 0 := by simpa using hz
    simp [livenessLoop, h0, h1]
  | succ m ih =>
    intro w fuel hf hs hp hz
    obtain ⟨f, rfl⟩ : ∃ f, fuel = f + 1 := ⟨fuel - 1, by omega⟩
    have h0 : env.shutdownAt w.loads = false := by simpa using hs 0 (Nat.zero_le _)
    have h1 : env.pidAt w.queries ≠ 0 := by simpa using hp 0 (Nat.succ_pos m)
    have hrec := ih { w with queries := w.queries + 1, loads := w.loads + 1,
                             sleeps := w.sleeps + 1 } f (by omega)
      (fun k hk => by
        have := hs (k + 1) (by omega)
        simpa [Nat.add_assoc, Nat.add_comm 1 k] using this)
      (fun k hk => by
        have := hp (k + 1) (by omega)
        simpa [Nat.add_assoc, Nat.add_comm 1 k] using this)
      (by simpa [Nat.add_assoc, Nat.add_comm 1 m] using hz)
    simp only [livenessLoop, h0, h1, if_true, Bool.not_false, ne_eq, not_false_eq_true]
    rw [hrec]
    simp only [Nat.add_assoc, Nat.add_comm 1 m, Nat.add_comm 1 (m + 1)]

/-- When the discovery loop ends, a process was found or the last load of the
flag, the one just made, returned true. -/
theorem discoveryLoop_exit (env : Env) (fuel : Nat) :
    ∀ (w w1 : Wait), discoveryLoop env fuel w = some w1 →
      w1.GamePID ≠ 0 ∨ (∃ j, w1.loads = j + 1 ∧ env.shutdownAt j = true) := by
  induction fuel with
  | zero => intro w w1 h; simp [discoveryLoop] at h
  | succ f ih =>
    intro w w1 h
    simp only [discoveryLoop] at h
    by_cases hp : env.pidAt w.queries = 0
    · by_cases hs : env.shutdownAt w.loads = true
      · simp [hp, hs] at h
        subst h
        exact Or.inr ⟨w.loads, rfl, hs⟩
      · have hs2 : env.shutdownAt w.loads = false := by simpa using hs
        simp [hp, hs2] at h
        exact ih _ _ h
    · simp [hp] at h
      subst h
      exact Or.inl hp

/-- C8: when every PID query returns 0 and the flag, false for the first `n`
loads, is true from then on, `WaitForGame` returns normally (for every fuel
above `n`), after `n + 1` queries, with `GamePID` equal to 0, without starting
the IPC-relay thread and without injecting. -/
theorem WaitForGame_shutdown_while_absent (env : Env) (n pid0 fuel : Nat)
    (hpid : ∀ k, env.pidAt k = 0)
    (hfalse : ∀ k, k < n → env.shutdownAt k = false)
    (htrue : ∀ k, n ≤ k → env.shutdownAt k = true)
    (hfuel : n < fuel) :
    ∃ w1, WaitForGame env fuel (Wait.start pid0) = some (w1, Outcome.returned)
      ∧ w1.GamePID = 0 ∧ w1.IPCSystem = false
      ∧ Effect.startIPCThread ∉ w1.trace
      ∧ w1.trace.countP Effect.isInject = 0
      ∧ w1.queries = n + 1 := by
  have h := discoveryLoop_until_shutdown env n
    { Wait.start pid0 with trace := (Wait.start pid0).trace ++ [Effect.log Level.INFO
      "Waiting for the game, please start BeamNG manually in case of steam issues"] }
    fuel hfuel (fun k _ => hpid _) (fun k hk => by simpa [Wait.start] using hfalse k hk)
    (by simpa [Wait.start] using htrue n (Nat.le_refl n))
  have ht : env.shutdownAt (n + 1) = true := htrue _ (Nat.le_succ n)
  simp only [WaitForGame, h]
  simp [Wait.start, ht, Effect.isInject]

/-- Witness for C8: no process ever, flag true from the third load on. -/
theorem WaitForGame_shutdown_while_absent_witness :
    ∃ w1, WaitForGame Env.neverFound 5 (Wait.start 0) = some (w1, Outcome.returned)
      ∧ w1.GamePID = 0 ∧ w1.IPCSystem = false
      ∧ Effect.startIPCThread ∉ w1.trace
      ∧ w1.trace.countP Effect.isInject = 0
      ∧ w1.queries = 2 + 1 :=
  WaitForGame_shutdown_while_absent Env.neverFound 2 0 5 (fun _ => rfl)
    (fun k hk => by simp [Env.neverFound]; omega)
    (fun k hk => by simp [Env.neverFound]; omega) (by decide)

/-- C9: when the flag is never read true, the first non-zero PID appears at
query `d`, the next `m` liveness polls find the process and the poll after
them returns 0, `WaitForGame` returns normally (for every fuel above `d + m`)
having started the IPC-relay thread once and injected once, into the PID found;
it has made `d + m + 2` queries, so it left the liveness loop at the first poll
that returned 0; and `GamePID` is 0 at the end. -/
theorem WaitForGame_process_lost (env : Env) (d m pid0 fuel : Nat)
    (hflag : ∀ k, env.shutdownAt k = false)
    (habsent : ∀ k, k < d → env.pidAt k = 0)
    (hfound : env.pidAt d ≠ 0)
    (halive : ∀ k, k < m → env.pidAt (d + 1 + k) ≠ 0)
    (hlost : env.pidAt (d + 1 + m) = 0)
    (hfuel : d + m < fuel) :
    ∃ w1, WaitForGame env fuel (Wait.start pid0) = some (w1, Outcome.returned)
      ∧ w1.GamePID = 0
      ∧ w1.trace.count Effect.startIPCThread = 1
      ∧ w1.trace.countP Effect.isInject = 1
      ∧ w1.trace.count (Effect.inject (env.pidAt d)) = 1
      ∧ w1.queries = d + m + 2
      ∧ w1.IPCSystem = true := by
  have h := discoveryLoop_until_found env d
    { Wait.start pid0 with trace := (Wait.start pid0).trace ++ [Effect.log Level.INFO
      "Waiting for the game, please start BeamNG manually in case of steam issues"] }
    fuel (by omega) (fun k hk => by simpa [Wait.start] using habsent k hk)
    (fun k _ => hflag _) (by simpa [Wait.start] using hfound)
  simp only [WaitForGame, h]
  simp only [Wait.start, Nat.zero_add, hflag, Bool.false_eq_true, if_false, hfound]
  have h2 := livenessLoop_until_lost env m
    { GamePID := env.pidAt d, IPCSystem := true, queries := d + 1, loads := d + 1,
      sleeps := d + 1,
      trace := [] ++ [Effect.log Level.INFO
          "Waiting for the game, please start BeamNG manually in case of steam issues"] ++
        [Effect.log Level.INFO ("Game found! PID " ++ toString (env.pidAt d)),
          Effect.startIPCThread, Effect.inject (env.pidAt d),
          Effect.setDiscordMessage "In menus"] }
    fuel (by omega) (fun k _ => hflag _) (fun k hk => halive k hk) hlost
  rw [h2]
  refine ⟨_, rfl, rfl, ?_, ?_, ?_, ?_, rfl⟩
  · simp
  · simp [Effect.isInject, List.countP_cons]
  · simp
  · simp only []
    omega

/-- Witness for C9: process 4711 found at the second query, alive for two
liveness polls, then gone; the flag is never set. -/
theorem WaitForGame_process_lost_witness :
    ∃ w1, WaitForGame Env.foundThenLost 4 (Wait.start 0) = some (w1, Outcome.returned)
      ∧ w1.GamePID = 0
      ∧ w1.trace.count Effect.startIPCThread = 1
      ∧ w1.trace.countP Effect.isInject = 1
      ∧ w1.trace.count (Effect.inject (Env.foundThenLost.pidAt 1)) = 1
      ∧ w1.queries = 1 + 2 + 2
      ∧ w1.IPCSystem = true :=
  WaitForGame_process_lost Env.foundThenLost 1 2 0 4 (fun _ => rfl)
    (fun k hk => by simp [Env.foundThenLost]; omega)
    (by decide)
    (fun k hk => by simp [Env.foundThenLost]; omega)
    (by decide) (by decide)

/-- Without the assumption of C10 the fatal branch can be reached: when the
flag is read true at the loop condition and false at the check after it,
`WaitForGame` raises. -/
theorem WaitForGame_fatal_when_flag_reset :
    (WaitForGame Env.flagReset 1 (Wait.start 0)).map Prod.snd
      = some (Outcome.threw "Fatal Error") := by
  decide

/-- C10: when the flag, once read true, is read true ever after, no run of
`WaitForGame` ends in the exception of the branch "Game process not found",
whatever the PID queries return, the fuel and the entry state; and when the
process appears at query `d` with the flag read false before and true at the
check after the loop, `WaitForGame` returns normally with `GamePID` still the
PID found and without starting the IPC-relay thread. -/
theorem WaitForGame_never_fatal (env : Env)
    (hmono : ∀ i j, i ≤ j → env.shutdownAt i = true → env.shutdownAt j = true) :
    (∀ (fuel : Nat) (w w1 : Wait) (what : String),
        WaitForGame env fuel w ≠ some (w1, Outcome.threw what))
    ∧ (∀ (d pid0 fuel : Nat), d < fuel →
        (∀ k, k < d → env.pidAt k = 0) →
        (∀ k, k < d → env.shutdownAt k = false) →
        env.pidAt d ≠ 0 → env.shutdownAt d = true →
        ∃ w1, WaitForGame env fuel (Wait.start pid0) = some (w1, Outcome.returned)
          ∧ w1.GamePID = env.pidAt d ∧ w1.GamePID ≠ 0 ∧ w1.IPCSystem = false
          ∧ Effect.startIPCThread ∉ w1.trace) := by
  constructor
  · intro fuel w w1 what hcon
    simp only [WaitForGame] at hcon
    cases hd : discoveryLoop env fuel { w with trace := w.trace ++ [Effect.log Level.INFO
        "Waiting for the game, please start BeamNG manually in case of steam issues"] } with
    | none => simp [hd] at hcon
    | some v =>
      simp only [hd] at hcon
      by_cases hs : env.shutdownAt v.loads = true
      · simp [hs] at hcon
      · have hs2 : env.shutdownAt v.loads = false := by simpa using hs
        by_cases hp : v.GamePID = 0
        · rcases discoveryLoop_exit env fuel _ v hd with h | ⟨j, hj, ht⟩
          · exact h hp
          · have := hmono j v.loads (by omega) ht
            rw [hs2] at this
            cases this
        · simp only [hs2, hp, Bool.false_eq_true, if_false] at hcon
          split at hcon <;> simp at hcon
  · intro d pid0 fuel hfuel habsent hfalse hfound htrue
    have h := discoveryLoop_until_found env d
      { Wait.start pid0 with trace := (Wait.start pid0).trace ++ [Effect.log Level.INFO
        "Waiting for the game, please start BeamNG manually in case of steam issues"] }
      fuel hfuel (fun k hk => by simpa [Wait.start] using habsent k hk)
      (fun k hk => by simpa [Wait.start] using hfalse k hk)
      (by simpa [Wait.start] using hfound)
    simp only [WaitForGame, h]
    simp [Wait.start, htrue, hfound]

/-- Witness for C10: process 4711 found at the second query while the flag is
read true from the second load on. -/
theorem WaitForGame_never_fatal_witness :
    (∀ (fuel : Nat) (w w1 : Wait) (what : String),
        WaitForGame Env.foundButShutdown fuel w ≠ some (w1, Outcome.threw what))
    ∧ ∃ w1, WaitForGame Env.foundButShutdown 2 (Wait.start 0) = some (w1, Outcome.returned)
          ∧ w1.GamePID = Env.foundButShutdown.pidAt 1 ∧ w1.GamePID ≠ 0 ∧ w1.IPCSystem = false
          ∧ Effect.startIPCThread ∉ w1.trace :=
  ⟨(WaitForGame_never_fatal Env.foundButShutdown
      (fun i j hij hi => by simp [Env.foundButShutdown] at hi ⊢; omega)).1,
    (WaitForGame_never_fatal Env.foundButShutdown
      (fun i j hij hi => by simp [Env.foundButShutdown] at hi ⊢; omega)).2 1 0 2 (by decide)
      (fun k hk => by simp [Env.foundButShutdown]; omega)
      (fun k hk => by simp [Env.foundButShutdown]; omega)
      (by decide) (by decide)⟩

end BeamMP
